import Mathlib

/-!
Verification of the streaming response relay of the Llm-Chat repository.

The definitions below are shallow embeddings of:
* `src/backend/src/socket/socket-handler/chat.js` — the buffered relay
  (`message` / `flushBuffer`): token buffer, flush timer, chunk events;
* `src/backend/src/socket/socket-handler/chat.ts` — the socket handler
  (`handleConnection`, `handleChatWithLLM`, `buildContextPrompt`);
* `src/models/ChatModel.ts` (Prisma-backed) and the in-memory `ChatModel`
  — chat/message persistence (`createChat`, `getChatById`, `addMessage`,
  `getChatContext`).

Machine integers do not occur on the verified paths; ids and timestamps are
modelled as `Nat`, database rows as lists of structures, and fallible
operations as `Except`/`Option`.
-/

namespace LlmChat

/-- Concatenation of a list of strings, head first (the order in which chunk
events are emitted). -/
def concatStrings : List String → String
  | [] => ""
  | s :: rest => s ++ concatStrings rest

/-! ### Token buffer (chat.js `message` handler)

A raw fragment delivered by the model runtime: either `undefined`/`null`, or
an object whose `content` field may itself be missing.  The JS code reads it
as `chunk?.content || ''`. -/

/-- One raw unit delivered by the underlying stream (`chunk` in the JS
`for await` loop). -/
inductive Fragment where
  /-- the runtime delivered `undefined`/`null` -/
  | undef : Fragment
  /-- the runtime delivered an object with an optional `content` field -/
  | obj (content : Option String) : Fragment
  deriving DecidableEq, Repr

/-- `chunk?.content || ''`: a missing object, a missing `content` field, and
an empty `content` string all normalize to the zero-length string. -/
def normalizeFragment : Fragment → String
  | .undef => ""
  | .obj none => ""
  | .obj (some s) => s

/-- The mutable closure state of the JS handler: the accumulator `buffer`,
the `timer` handle (armed or not), and the chunk payloads emitted so far. -/
structure RelayState where
  buffer : String
  timerArmed : Bool
  emitted : List String
  deriving DecidableEq, Repr

/-- `let buffer = ''; let timer = null;` -/
def RelayState.init : RelayState := { buffer := "", timerArmed := false, emitted := [] }

/-- `flushBuffer`: if the accumulator is non-empty, emit one
`llm-response-chunk` event carrying all of it and clear it.  The timer handle
is not touched. -/
def flushBuffer (s : RelayState) : RelayState :=
  if s.buffer = "" then s
  else { s with emitted := s.emitted ++ [s.buffer], buffer := "" }

/-- Body of the `for await` loop: `buffer += chunk?.content || ''` and, when
no timer is armed, arm one (`if (!timer) timer = setTimeout(...)`). -/
def onFragment (s : RelayState) (f : Fragment) : RelayState :=
  { s with buffer := s.buffer ++ normalizeFragment f, timerArmed := true }

/-- The timer callback: `flushBuffer(); timer = null;`. -/
def onTimerFire (s : RelayState) : RelayState :=
  { flushBuffer s with timerArmed := false }

/-- One observable step of a streaming session: either a fragment arrives or
the flush timer fires.  The JS event loop interleaves timer callbacks with
the `for await` iterations; any interleaving is admitted here. -/
inductive RelayStep where
  | frag (f : Fragment)
  | timerFire
  deriving DecidableEq, Repr

/-- Apply one step to the relay state. -/
def relayStep (s : RelayState) : RelayStep → RelayState
  | .frag f => onFragment s f
  | .timerFire => onTimerFire s

/-- Run the loop over a whole interleaving of fragments and timer fires. -/
def runRelay (steps : List RelayStep) : RelayState :=
  steps.foldl relayStep RelayState.init

/-- The fragments contained in an interleaving, in arrival order. -/
def stepFragments (steps : List RelayStep) : List Fragment :=
  steps.filterMap fun s =>
    match s with
    | .frag f => some f
    | .timerFire => none

/-! ### The full chat.js `chat-with-llm` session

After the `for await` loop the code performs one `flushBuffer()` and emits
`llm-response-end`; if the loop raises, the `catch` block synchronously
emits `llm-response-error` with payload `{ error: error }` — the raw error
value — and performs no flush itself.  The code never calls `clearTimeout`,
so a timer armed when the loop is left is still pending and fires later:

* on the natural-end path the final flush has already cleared the
  accumulator, so the late callback emits nothing;
* on the error path the late callback finds whatever the accumulator still
  holds and, when non-empty, emits it as one `llm-response-chunk` AFTER the
  error signal (the throw-to-catch path has no suspension point, so the
  callback cannot run before `llm-response-error` is emitted). -/

/-- A JavaScript runtime value as far as the error payloads are concerned:
either a plain string or an `Error` object (message plus stack trace). -/
inductive JsValue where
  | str (s : String)
  | errObj (message : String) (stack : String)
  deriving DecidableEq, Repr

/-- Payload of the JS handler's `llm-response-error`: `{ error: error }`. -/
def jsErrorPayload (e : JsValue) : List (String × JsValue) :=
  [("error", e)]

/-- Payload of the TS handler's `llm-response-error`:
`{ message: 'Failed to get AI response. Please try again.', error: error.message }`. -/
def tsErrorPayload (errMessage : String) : List (String × JsValue) :=
  [("message", JsValue.str "Failed to get AI response. Please try again."),
   ("error", JsValue.str errMessage)]

/-- Field lookup in an emitted JSON-like payload. -/
def lookupField (p : List (String × JsValue)) (k : String) : Option JsValue :=
  (p.find? fun kv => kv.1 == k).map (·.2)

/-- The field `k` is present and holds a string. -/
def stringField (p : List (String × JsValue)) (k : String) : Prop :=
  ∃ s, lookupField p k = some (JsValue.str s)

/-- The payload shape the interface table prescribes for `llm-response-error`:
a `message` field holding a string and an `error` field holding a string. -/
def wellTypedErrorPayload (p : List (String × JsValue)) : Prop :=
  stringField p "message" ∧ stringField p "error"

/-- Events the JS handler emits to the socket. -/
inductive JsEvent where
  | chunk (payload : String)
  | respEnd
  | respError (payload : List (String × JsValue))
  deriving DecidableEq, Repr

/-- One whole `chat-with-llm` session of the JS handler: the loop processes
`steps` (fragments interleaved with timer fires); afterwards either the
stream ended naturally (`failure = none`: final `flushBuffer()` then
`llm-response-end`; a still-armed timer later fires on the cleared
accumulator and emits nothing) or it raised (`failure = some e`: the `catch`
emits `llm-response-error` with the raw error and no flush, and a still-armed
timer later fires and emits the non-empty accumulator as one late chunk
after the error signal). -/
def jsSession (steps : List RelayStep) (failure : Option JsValue) : List JsEvent :=
  let s := runRelay steps
  match failure with
  | none =>
    ((flushBuffer s).emitted.map JsEvent.chunk) ++ [JsEvent.respEnd]
  | some e =>
    (s.emitted.map JsEvent.chunk) ++ [JsEvent.respError (jsErrorPayload e)]
      ++ (if s.timerArmed && !(s.buffer == "") then [JsEvent.chunk s.buffer] else [])

/-- The `llm-response-chunk` payloads emitted strictly before the terminal
signal (`llm-response-end` or `llm-response-error`) of a session. -/
def chunksBeforeTerminal : List JsEvent → List String
  | [] => []
  | JsEvent.chunk s :: rest => s :: chunksBeforeTerminal rest
  | JsEvent.respEnd :: _ => []
  | JsEvent.respError _ :: _ => []

/-- The `llm-response-chunk` payloads of a JS session, in emission order. -/
def jsChunkPayloads (evs : List JsEvent) : List String :=
  evs.filterMap fun e =>
    match e with
    | .chunk s => some s
    | _ => none

/-! ### Storage model (Prisma-backed `ChatModel`, src/models/ChatModel.ts)

Rows are kept in insertion order; `id` values are drawn from a counter and
`createdAt`/`updatedAt` from a logical clock, mirroring cuid generation and
wall-clock timestamps. -/

/-- The `MessageRole` enum of the Prisma schema. -/
inductive Role where
  | user
  | assistant
  | system
  deriving DecidableEq, Repr

/-- One row of the `messages` table. -/
structure MessageRow where
  id : Nat
  chatId : Nat
  userId : Nat
  role : Role
  content : String
  createdAt : Nat
  deriving DecidableEq, Repr

/-- One row of the `chats` table. -/
structure ChatRow where
  id : Nat
  title : String
  userId : Nat
  context : Option String
  createdAt : Nat
  updatedAt : Nat
  deriving DecidableEq, Repr

/-- The database reachable through the Prisma client, plus the id counter and
the logical clock used for fresh ids and timestamps. -/
structure Db where
  chats : List ChatRow
  messages : List MessageRow
  nextId : Nat
  clock : Nat
  deriving DecidableEq, Repr

/-- Row lookup by primary key (`where: { id: chatId }`). -/
def findChat (db : Db) (chatId : Nat) : Option ChatRow :=
  db.chats.find? fun c => c.id == chatId

/-- `ChatModel.getChatById`: `prisma.chat.findFirst({ where: { id: chatId,
userId } })`.  Returns the chat only when it exists and is owned by
`userId`. -/
def getChatById (db : Db) (chatId userId : Nat) : Option ChatRow :=
  db.chats.find? fun c => c.id == chatId && c.userId == userId

/-- Argument record of `ChatModel.createChat`. -/
structure CreateChatData where
  title : String
  userId : Nat
  context : Option String
  deriving DecidableEq, Repr

/-- `ChatModel.createChat`: insert a fresh chat row and return it. -/
def createChat (db : Db) (data : CreateChatData) : ChatRow × Db :=
  let chat : ChatRow :=
    { id := db.nextId, title := data.title, userId := data.userId,
      context := data.context, createdAt := db.clock, updatedAt := db.clock }
  (chat,
   { db with chats := db.chats ++ [chat], nextId := db.nextId + 1, clock := db.clock + 1 })

/-- `ChatModel.addMessage`: `prisma.message.create({ data: { content, role,
chatId, userId } })` followed by `prisma.chat.update({ where: { id: chatId },
data: { updatedAt: new Date() } })`.  Neither call filters by the owning
user: the message is inserted and the chat's `updatedAt` bumped for ANY
existing chat id, whoever owns it.  The operation only fails when no chat
row with that id exists at all (relation/update target missing). -/
def addMessage (db : Db) (chatId userId : Nat) (content : String) (role : Role) :
    Except String (MessageRow × Db) :=
  match findChat db chatId with
  | none => .error "Record not found"
  | some _ =>
    let msg : MessageRow :=
      { id := db.nextId, chatId := chatId, userId := userId, role := role,
        content := content, createdAt := db.clock }
    let db1 : Db :=
      { db with messages := db.messages ++ [msg],
                nextId := db.nextId + 1, clock := db.clock + 1 }
    let db2 : Db :=
      { db1 with
          chats := db1.chats.map fun c =>
            if c.id == chatId then { c with updatedAt := db1.clock } else c,
          clock := db1.clock + 1 }
    .ok (msg, db2)

/-- The chat row `createChat db { title := "New Chat", userId := uid }`
inserts (the lazy creation both branches of the handler perform). -/
def newChatRow (db : Db) (uid : Nat) : ChatRow :=
  { id := db.nextId, title := "New Chat", userId := uid, context := none,
    createdAt := db.clock, updatedAt := db.clock }

/-- The message row a successful `addMessage` inserts. -/
def insertedMessage (db : Db) (cid uid : Nat) (content : String) (role : Role) : MessageRow :=
  { id := db.nextId, chatId := cid, userId := uid, role := role,
    content := content, createdAt := db.clock }

/-- The database state after a successful `addMessage`: the message appended
and the chat's `updatedAt` bumped. -/
def dbAfterAdd (db : Db) (cid uid : Nat) (content : String) (role : Role) : Db :=
  { chats := db.chats.map fun c =>
      if c.id == cid then { c with updatedAt := db.clock + 1 } else c,
    messages := db.messages ++ [insertedMessage db cid uid content role],
    nextId := db.nextId + 1, clock := db.clock + 2 }

/-- Stable insertion into a list sorted by `createdAt` ascending. -/
def insertByCreatedAt (m : MessageRow) : List MessageRow → List MessageRow
  | [] => [m]
  | y :: ys =>
    if m.createdAt ≤ y.createdAt then m :: y :: ys else y :: insertByCreatedAt m ys

/-- `orderBy: { createdAt: 'asc' }` — a stable ascending sort (ties keep
insertion order, matching the monotone-id tie-break of the database). -/
def sortByCreatedAt (l : List MessageRow) : List MessageRow :=
  l.foldr insertByCreatedAt []

/-- The messages of one chat ordered by `createdAt` ascending. -/
def chatMessagesAsc (db : Db) (chatId : Nat) : List MessageRow :=
  sortByCreatedAt (db.messages.filter fun m => m.chatId == chatId)

/-- Return shape of `ChatModel.getChatContext`. -/
structure ChatContextData where
  messages : List MessageRow
  context : Option String
  deriving DecidableEq, Repr

/-- `ChatModel.getChatContext`: `findFirst({ where: { id, userId }, include:
{ messages: { orderBy: { createdAt: 'asc' }, take: 20 } } })`; throws
`'Chat not found'` when the chat is missing or foreign.  Note `take: 20`
applied to the ascending order keeps the FIRST twenty (oldest) messages. -/
def getChatContext (db : Db) (chatId userId : Nat) : Except String ChatContextData :=
  match getChatById db chatId userId with
  | none => .error "Chat not found"
  | some chat =>
    .ok { messages := (chatMessagesAsc db chatId).take 20,
          context := chat.context }

/-! ### In-memory `ChatModel` (the `chats: Map<string, Chat>` variant)

The repository also carries an in-memory implementation of the same storage
contract; its `addMessage` resolves the chat through `getChatById(chatId,
userId)` first and returns `null` without mutating anything when the chat is
missing or owned by another user. -/

/-- A message of the in-memory model (embedded in its chat). -/
structure MemMessage where
  id : Nat
  role : Role
  content : String
  userId : Nat
  deriving DecidableEq, Repr

/-- A chat of the in-memory model, with its embedded message list. -/
structure MemChat where
  id : Nat
  userId : Nat
  title : String
  messages : List MemMessage
  context : Option String
  updatedAt : Nat
  deriving DecidableEq, Repr

/-- In-memory `getChatById`: `chats.get(chatId)`, then `null` unless
`chat.userId === userId`. -/
def memGetChatById (chats : List MemChat) (chatId userId : Nat) : Option MemChat :=
  match chats.find? (fun c => c.id == chatId) with
  | none => none
  | some c => if c.userId == userId then some c else none

/-- In-memory `addMessage`: resolves through `memGetChatById`; on `null`
returns `none` and leaves the store untouched; otherwise pushes the message
and bumps `updatedAt`. -/
def memAddMessage (chats : List MemChat) (freshId clock : Nat)
    (chatId userId : Nat) (role : Role) (content : String) :
    Option MemMessage × List MemChat :=
  match memGetChatById chats chatId userId with
  | none => (none, chats)
  | some _ =>
    let msg : MemMessage := { id := freshId, role := role, content := content, userId := userId }
    (some msg,
     chats.map fun c =>
       if c.id == chatId then
         { c with messages := c.messages ++ [msg], updatedAt := clock }
       else c)

/-! ### The TS socket handler (`ChatSocketHandler`, chat.ts) -/

/-- The identity bound to the socket at connection time (`socket.user`). -/
structure UserRef where
  id : Nat
  email : Option String
  deriving DecidableEq, Repr

/-- The `chat-with-llm` event payload (`ChatMessage` interface).  Every field
can be absent at runtime; the handler reads only `content`, `chatId` and
`context` — the `userId` field of the payload is never consulted (the
identity comes from `socket.user`). -/
structure ChatMessageData where
  content : Option String
  chatId : Option Nat
  userId : Option Nat
  context : Option String
  deriving DecidableEq, Repr

/-- JavaScript truthiness of an optional string: `undefined`, `null` and the
empty string are falsy. -/
def truthy : Option String → Bool
  | none => false
  | some s => !(s == "")

/-- Events the TS handler emits to the socket. -/
inductive Event where
  /-- `auth_error` (connection handshake) -/
  | authError (message : String)
  /-- generic `error` event -/
  | errorEv (message : String)
  /-- `chat-created` -/
  | chatCreated (chatId : Nat)
  /-- `llm-typing-start` -/
  | typingStart
  /-- `llm-typing-end` -/
  | typingEnd
  /-- `llm-response-chunk` with payload `{ chunk }` -/
  | chunk (payload : String)
  /-- `llm-response-complete` with `{ message, chatId }` -/
  | complete (messageId chatId : Nat)
  /-- `llm-response-error` with `{ message, error }` -/
  | respError (message error : String)
  deriving DecidableEq, Repr

/-- Calls made to the storage collaborator (`this.chatModel.*`). -/
inductive StorageCall where
  | createChatCall
  | getChatByIdCall
  | addMessageCall
  | getChatContextCall
  deriving DecidableEq, Repr

/-- Observable outcome of one `handleChatWithLLM` invocation. -/
structure HandlerResult where
  events : List Event
  db : Db
  calls : List StorageCall
  connectionOpen : Bool
  deriving DecidableEq, Repr

/-- Outcome of the chat-resolution prelude of `handleChatWithLLM`. -/
structure ResolveResult where
  chatId : Nat
  db : Db
  events : List Event
  calls : List StorageCall
  deriving DecidableEq, Repr

/-- Lines 126–149 of chat.ts: when no `chatId` was supplied, create a chat
titled `"New Chat"` and emit `chat-created`; when one was supplied, look it
up scoped to the requesting user and, when that misses (unknown id or a chat
owned by someone else), create and announce a fresh `"New Chat"`; otherwise
use the existing chat unchanged. -/
def resolveOrCreateChat (db : Db) (chatId : Option Nat) (userId : Nat) : ResolveResult :=
  match chatId with
  | none =>
    let (newChat, db1) := createChat db { title := "New Chat", userId := userId, context := none }
    { chatId := newChat.id, db := db1,
      events := [Event.chatCreated newChat.id], calls := [StorageCall.createChatCall] }
  | some cid =>
    match getChatById db cid userId with
    | none =>
      let (newChat, db1) := createChat db { title := "New Chat", userId := userId, context := none }
      { chatId := newChat.id, db := db1,
        events := [Event.chatCreated newChat.id],
        calls := [StorageCall.getChatByIdCall, StorageCall.createChatCall] }
    | some _ =>
      { chatId := cid, db := db, events := [], calls := [StorageCall.getChatByIdCall] }

/-- `msg.role === 'USER' ? 'User' : 'Assistant'` -/
def roleLabel : Role → String
  | .user => "User"
  | _ => "Assistant"

/-- `buildContextPrompt` of chat.ts: system preamble, optional additional
context, optional chat context, then the previous conversation. -/
def buildContextPrompt (cc : ChatContextData) (additionalContext : Option String) : String :=
  let p0 := "You are a helpful AI assistant. Provide clear, accurate, and helpful responses."
  let p1 :=
    if truthy additionalContext then
      p0 ++ "\n\nAdditional context: " ++ additionalContext.getD ""
    else p0
  let p2 :=
    if truthy cc.context then
      p1 ++ "\n\nChat context: " ++ cc.context.getD ""
    else p1
  if cc.messages.length > 0 then
    p2 ++ "\n\nPrevious conversation:\n"
       ++ concatStrings (cc.messages.map fun m => roleLabel m.role ++ ": " ++ m.content ++ "\n")
  else p2

/-- Behaviour of one `this.model.stream(fullPrompt)` call: the fragments the
async iterator yields, and — when `failure = some e` — the message of the
error the iteration raises after the last fragment (`failure = none` means
the stream terminates naturally). -/
structure StreamBehavior where
  fragments : List String
  failure : Option String
  deriving DecidableEq, Repr

/-- `handleChatWithLLM` of chat.ts, one invocation end to end.  `stream`
models the inference engine: the behaviour of `this.model.stream` as a
function of the prompt it is called with.  The `catch` block of the source
always emits `llm-typing-end` followed by `llm-response-error` (with the
fixed safe message and `error.message`) and never closes the socket. -/
def handleChatWithLLM (db : Db) (user : Option UserRef) (data : ChatMessageData)
    (stream : String → StreamBehavior) : HandlerResult :=
  match user with
  | none =>
    { events := [Event.errorEv "Authentication required"], db := db,
      calls := [], connectionOpen := true }
  | some u =>
    if truthy data.content = false then
      { events := [Event.errorEv "Content is required"], db := db,
        calls := [], connectionOpen := true }
    else
      let content := data.content.getD ""
      let r := resolveOrCreateChat db data.chatId u.id
      match addMessage r.db r.chatId u.id content Role.user with
      | .error e =>
        { events := r.events ++ [Event.typingEnd,
            Event.respError "Failed to get AI response. Please try again." e],
          db := r.db, calls := r.calls ++ [StorageCall.addMessageCall],
          connectionOpen := true }
      | .ok (_, db2) =>
        match getChatContext db2 r.chatId u.id with
        | .error e =>
          { events := r.events ++ [Event.typingStart, Event.typingEnd,
              Event.respError "Failed to get AI response. Please try again." e],
            db := db2,
            calls := r.calls ++ [StorageCall.addMessageCall, StorageCall.getChatContextCall],
            connectionOpen := true }
        | .ok cc =>
          let fullPrompt :=
            buildContextPrompt cc data.context ++ "\n\nUser: " ++ content ++ "\n\nAssistant:"
          let sb := stream fullPrompt
          let chunkEvents := sb.fragments.map Event.chunk
          let responseContent := concatStrings sb.fragments
          match sb.failure with
          | some e =>
            { events := r.events ++ [Event.typingStart] ++ chunkEvents ++ [Event.typingEnd,
                Event.respError "Failed to get AI response. Please try again." e],
              db := db2,
              calls := r.calls ++ [StorageCall.addMessageCall, StorageCall.getChatContextCall],
              connectionOpen := true }
          | none =>
            match addMessage db2 r.chatId u.id responseContent Role.assistant with
            | .error e =>
              { events := r.events ++ [Event.typingStart] ++ chunkEvents ++ [Event.typingEnd,
                  Event.respError "Failed to get AI response. Please try again." e],
                db := db2,
                calls := r.calls ++ [StorageCall.addMessageCall, StorageCall.getChatContextCall,
                  StorageCall.addMessageCall],
                connectionOpen := true }
            | .ok (aiMsg, db3) =>
              { events := r.events ++ [Event.typingStart] ++ chunkEvents ++ [Event.typingEnd,
                  Event.complete aiMsg.id r.chatId],
                db := db3,
                calls := r.calls ++ [StorageCall.addMessageCall, StorageCall.getChatContextCall,
                  StorageCall.addMessageCall],
                connectionOpen := true }

/-- The `llm-response-chunk` payloads among the TS handler's events. -/
def tsChunkPayloads (evs : List Event) : List String :=
  evs.filterMap fun e =>
    match e with
    | .chunk s => some s
    | _ => none

/-! ### Connection lifecycle (`handleConnection`, chat.ts lines 49–110) -/

/-- Outcome of accepting one socket connection. -/
structure ConnectionResult where
  events : List Event
  disconnected : Bool
  boundUser : Option UserRef
  chatHandlerRegistered : Bool
  deriving DecidableEq, Repr

/-- `handleConnection`: the credential is taken from the handshake
(`auth.token || headers.authorization...`; an empty string is falsy).  A
missing or invalid credential emits `auth_error` and disconnects BEFORE any
event listener is registered; a valid one binds `socket.user` and registers
the listeners.  `verify` models the pure `verifyToken` check. -/
def handleConnection (token : Option String) (verify : String → Option UserRef) :
    ConnectionResult :=
  if truthy token = false then
    { events := [Event.authError "Authentication required"], disconnected := true,
      boundUser := none, chatHandlerRegistered := false }
  else
    match verify (token.getD "") with
    | none =>
      { events := [Event.authError "Invalid token"], disconnected := true,
        boundUser := none, chatHandlerRegistered := false }
    | some u =>
      { events := [], disconnected := false,
        boundUser := some u, chatHandlerRegistered := true }

/-- The identity a credential establishes: none when the token is missing,
falsy, or fails verification. -/
def credentialUser (token : Option String) (verify : String → Option UserRef) :
    Option UserRef :=
  if truthy token then verify (token.getD "") else none

/-- A connection accepted with `token`, then sent one `chat-with-llm` event.
When the connection was rejected at accept time, no `chat-with-llm` listener
exists, so the event is dropped by the transport: no handler code runs and
no storage call is made. -/
def connectionThenPrompt (token : Option String) (verify : String → Option UserRef)
    (db : Db) (data : ChatMessageData) (stream : String → StreamBehavior) :
    ConnectionResult × HandlerResult :=
  let conn := handleConnection token verify
  if conn.chatHandlerRegistered then
    (conn, handleChatWithLLM db conn.boundUser data stream)
  else
    (conn, { events := [], db := db, calls := [], connectionOpen := false })

/-! ### Per-connection view for the concurrency rule

The connection-scoped state the source actually keeps is just `socket.user`;
the handler closure tracks no in-flight/busy flag.  To state the spec's
concurrency rule we extend the connection state with the fact that a
previous prompt's streaming session is still active, and dispatch the event
exactly as the source does — which never consults that fact. -/

/-- Connection state extended with the streaming-activity fact. -/
structure ConnState where
  user : Option UserRef
  streamingActive : Bool
  deriving DecidableEq, Repr

/-- Dispatch of a `chat-with-llm` event on a connection: the source's
listener invokes `handleChatWithLLM(socket, data)` unconditionally; there is
no busy check, so the dispatch is independent of `streamingActive`. -/
def onChatWithLlmEvent (c : ConnState) (db : Db) (data : ChatMessageData)
    (stream : String → StreamBehavior) : HandlerResult :=
  handleChatWithLLM db c.user data stream

/-- A busy/ignored outcome for a prompt: nothing is processed — no storage
call, no database change, and nothing beyond plain `error` notifications is
emitted. -/
def rejectedOutcome (db : Db) (r : HandlerResult) : Prop :=
  r.calls = [] ∧ r.db = db ∧
  ∀ e ∈ r.events, ∃ msg, e = Event.errorEv msg

/-! ### Concrete instances used to evaluate the model -/

/-- An empty database with fresh counters. -/
def dbEmpty : Db := { chats := [], messages := [], nextId := 1, clock := 1 }

/-- A database holding exactly one chat, id 1, owned by user 1. -/
def dbOneChat : Db :=
  { chats := [{ id := 1, title := "t", userId := 1, context := none,
                createdAt := 0, updatedAt := 0 }],
    messages := [], nextId := 10, clock := 5 }

/-- Chat 1 of user 1 carrying twenty-one messages with `createdAt` 1..21. -/
def dbTwentyOne : Db :=
  { chats := [{ id := 1, title := "t", userId := 1, context := none,
                createdAt := 0, updatedAt := 0 }],
    messages := (List.range 21).map fun i =>
      { id := 100 + i, chatId := 1, userId := 1, role := Role.user,
        content := "m", createdAt := i + 1 },
    nextId := 200, clock := 30 }

/-- A bound identity. -/
def sampleUser : UserRef := { id := 1, email := none }

/-- A well-formed prompt payload with no chat id. -/
def sampleData : ChatMessageData :=
  { content := some "Hello", chatId := none, userId := none, context := none }

/-- A prompt payload naming chat 1. -/
def sampleDataChat1 : ChatMessageData :=
  { content := some "Hello", chatId := some 1, userId := none, context := none }

/-- An inference engine that yields two fragments and terminates. -/
def sampleStream : String → StreamBehavior :=
  fun _ => { fragments := ["Hi", " there"], failure := none }

end LlmChat

namespace LlmChat

theorem concatStrings_append (a b : List String) :
    concatStrings (a ++ b) = concatStrings a ++ concatStrings b := by
  induction a with
  | nil => simp [concatStrings]
  | cons x xs ih => simp [concatStrings, ih, String.append_assoc]

/-- Core invariant of the token buffer: at every point of the session, the
chunk payloads emitted so far followed by the accumulator contents spell out
exactly the normalized fragments processed so far. -/
theorem relay_invariant_aux (steps : List RelayStep) (s : RelayState) :
    concatStrings ((steps.foldl relayStep s).emitted) ++ (steps.foldl relayStep s).buffer
      = (concatStrings s.emitted ++ s.buffer)
        ++ concatStrings ((stepFragments steps).map normalizeFragment) := by
  induction steps generalizing s with
  | nil => simp [stepFragments, concatStrings]
  | cons st rest ih =>
    cases st with
    | frag f =>
      simp only [List.foldl_cons, relayStep, stepFragments, List.filterMap_cons]
      rw [ih]
      simp [onFragment, stepFragments, concatStrings, String.append_assoc]
    | timerFire =>
      simp only [List.foldl_cons, relayStep, stepFragments, List.filterMap_cons]
      rw [ih]
      unfold onTimerFire flushBuffer
      by_cases h : s.buffer = "" <;>
        simp [h, stepFragments, concatStrings_append, concatStrings, String.append_assoc]

theorem relay_invariant (steps : List RelayStep) :
    concatStrings (runRelay steps).emitted ++ (runRelay steps).buffer
      = concatStrings ((stepFragments steps).map normalizeFragment) := by
  have h := relay_invariant_aux steps RelayState.init
  simpa [runRelay, RelayState.init, concatStrings] using h

theorem flushBuffer_emitted (s : RelayState) :
    concatStrings (flushBuffer s).emitted = concatStrings s.emitted ++ s.buffer := by
  unfold flushBuffer
  by_cases h : s.buffer = "" <;> simp [h, concatStrings_append, concatStrings]

theorem jsChunkPayloads_append (a b : List JsEvent) :
    jsChunkPayloads (a ++ b) = jsChunkPayloads a ++ jsChunkPayloads b := by
  simp [jsChunkPayloads, List.filterMap_append]

theorem jsChunkPayloads_chunks (l : List String) :
    jsChunkPayloads (l.map JsEvent.chunk) = l := by
  induction l with
  | nil => rfl
  | cons x xs ih => simp [jsChunkPayloads, List.filterMap_cons] at ih ⊢; exact ih

theorem concatStrings_singleton (s : String) : concatStrings [s] = s := by
  simp [concatStrings, String.append_empty]

theorem chunksBeforeTerminal_chunks_end (l : List String) :
    chunksBeforeTerminal (l.map JsEvent.chunk ++ [JsEvent.respEnd]) = l := by
  induction l with
  | nil => rfl
  | cons x xs ih => simpa [chunksBeforeTerminal] using ih

theorem chunksBeforeTerminal_chunks_error (l : List String)
    (p : List (String × JsValue)) (rest : List JsEvent) :
    chunksBeforeTerminal ((l.map JsEvent.chunk ++ [JsEvent.respError p]) ++ rest) = l := by
  induction l with
  | nil => rfl
  | cons x xs ih => simpa [chunksBeforeTerminal] using ih

theorem buffer_timer_aux (steps : List RelayStep) (s : RelayState)
    (h : s.buffer ≠ "" → s.timerArmed = true) :
    (steps.foldl relayStep s).buffer ≠ "" → (steps.foldl relayStep s).timerArmed = true := by
  induction steps generalizing s with
  | nil => exact h
  | cons st rest ih =>
    cases st with
    | frag f => exact ih _ fun _ => rfl
    | timerFire =>
      refine ih _ fun hb => (hb ?_).elim
      show (relayStep s RelayStep.timerFire).buffer = ""
      unfold relayStep onTimerFire flushBuffer
      by_cases hbe : s.buffer = "" <;> simp [hbe]

/-- A non-empty accumulator always has an armed flush timer: the step that
filled it armed one, and a timer fire empties the accumulator. -/
theorem buffer_nonempty_timer_armed (steps : List RelayStep) :
    (runRelay steps).buffer ≠ "" → (runRelay steps).timerArmed = true :=
  buffer_timer_aux steps RelayState.init fun h => absurd rfl h

theorem resolve_messages (db : Db) (cid : Option Nat) (uid : Nat) :
    (resolveOrCreateChat db cid uid).db.messages = db.messages := by
  unfold resolveOrCreateChat
  cases cid with
  | none => simp [createChat]
  | some c => cases h : getChatById db c uid <;> simp [h, createChat]

theorem resolve_chat_owned (db : Db) (cid : Option Nat) (uid : Nat) :
    ∃ c ∈ (resolveOrCreateChat db cid uid).db.chats,
      c.id = (resolveOrCreateChat db cid uid).chatId ∧ c.userId = uid := by
  unfold resolveOrCreateChat
  cases cid with
  | none =>
    refine ⟨_, ?_, rfl, rfl⟩
    simp [createChat]
  | some c =>
    cases h : getChatById db c uid with
    | none =>
      simp only [h]
      refine ⟨_, ?_, rfl, rfl⟩
      simp [createChat]
    | some chat =>
      simp only [h]
      have hmem := List.mem_of_find?_eq_some h
      have hp := List.find?_some h
      simp only [Bool.and_eq_true, beq_iff_eq] at hp
      exact ⟨chat, hmem, hp.1, hp.2⟩

theorem resolve_events_shape (db : Db) (cid : Option Nat) (uid : Nat) :
    (resolveOrCreateChat db cid uid).events = [] ∨
    (resolveOrCreateChat db cid uid).events
      = [Event.chatCreated (resolveOrCreateChat db cid uid).chatId] := by
  unfold resolveOrCreateChat
  cases cid with
  | none => right; rfl
  | some c => cases h : getChatById db c uid <;> simp [h]

theorem resolve_calls_ne_nil (db : Db) (cid : Option Nat) (uid : Nat) :
    (resolveOrCreateChat db cid uid).calls ≠ [] := by
  unfold resolveOrCreateChat
  cases cid with
  | none => simp
  | some c => cases h : getChatById db c uid <;> simp [h]

theorem addMessage_ok (db : Db) (cid uid : Nat) (content : String) (role : Role)
    (h : ∃ c ∈ db.chats, c.id = cid) :
    addMessage db cid uid content role = Except.ok
      (insertedMessage db cid uid content role, dbAfterAdd db cid uid content role) := by
  obtain ⟨c, hmem, hid⟩ := h
  have hfind : (findChat db cid).isSome := by
    unfold findChat
    rw [List.find?_isSome]
    exact ⟨c, hmem, by simp [hid]⟩
  obtain ⟨c', hc'⟩ := Option.isSome_iff_exists.mp hfind
  unfold addMessage
  rw [hc']
  rfl

theorem chats_map_bump_owned {l : List ChatRow} {cid uid : Nat} (t k : Nat)
    (h : ∃ c ∈ l, c.id = cid ∧ c.userId = uid) :
    ∃ c ∈ l.map (fun c => if c.id == k then { c with updatedAt := t } else c),
      c.id = cid ∧ c.userId = uid := by
  obtain ⟨c, hmem, h1, h2⟩ := h
  refine ⟨if c.id == k then { c with updatedAt := t } else c,
    List.mem_map_of_mem _ hmem, ?_⟩
  cases hck : c.id == k <;> simpa [hck] using ⟨h1, h2⟩

theorem getChatById_isSome {db : Db} {cid uid : Nat}
    (h : ∃ c ∈ db.chats, c.id = cid ∧ c.userId = uid) :
    (getChatById db cid uid).isSome := by
  unfold getChatById
  rw [List.find?_isSome]
  obtain ⟨c, hmem, h1, h2⟩ := h
  exact ⟨c, hmem, by simp [h1, h2]⟩

theorem getChatContext_ok {db : Db} {cid uid : Nat}
    (h : ∃ c ∈ db.chats, c.id = cid ∧ c.userId = uid) :
    ∃ cc, getChatContext db cid uid = Except.ok cc := by
  obtain ⟨chat, hchat⟩ := Option.isSome_iff_exists.mp (getChatById_isSome h)
  exact ⟨_, by unfold getChatContext; rw [hchat]⟩

/-- Shape of a full `handleChatWithLLM` run past the guards, for a stream
that yields `sb.fragments` and then either raises (`sb.failure = some`) or
ends naturally (`sb.failure = none`). -/
theorem handle_stream_shape (db : Db) (u : UserRef) (data : ChatMessageData)
    (sb : StreamBehavior) (hc : truthy data.content = true) :
    ∃ (userMsg : MessageRow) (db2 : Db),
      userMsg.role = Role.user ∧ userMsg.content = data.content.getD "" ∧
      userMsg.userId = u.id ∧
      userMsg.chatId = (resolveOrCreateChat db data.chatId u.id).chatId ∧
      db2.messages = db.messages ++ [userMsg] ∧
      (∀ emsg, sb.failure = some emsg →
        handleChatWithLLM db (some u) data (fun _ => sb) =
          { events := (resolveOrCreateChat db data.chatId u.id).events
              ++ [Event.typingStart] ++ sb.fragments.map Event.chunk
              ++ [Event.typingEnd,
                  Event.respError "Failed to get AI response. Please try again." emsg],
            db := db2,
            calls := (resolveOrCreateChat db data.chatId u.id).calls
              ++ [StorageCall.addMessageCall, StorageCall.getChatContextCall],
            connectionOpen := true }) ∧
      (sb.failure = none →
        ∃ (aiMsg : MessageRow) (db3 : Db),
          aiMsg.role = Role.assistant ∧ aiMsg.content = concatStrings sb.fragments ∧
          db3.messages = db.messages ++ [userMsg, aiMsg] ∧
          handleChatWithLLM db (some u) data (fun _ => sb) =
            { events := (resolveOrCreateChat db data.chatId u.id).events
                ++ [Event.typingStart] ++ sb.fragments.map Event.chunk
                ++ [Event.typingEnd,
                    Event.complete aiMsg.id (resolveOrCreateChat db data.chatId u.id).chatId],
              db := db3,
              calls := (resolveOrCreateChat db data.chatId u.id).calls
                ++ [StorageCall.addMessageCall, StorageCall.getChatContextCall,
                    StorageCall.addMessageCall],
              connectionOpen := true }) := by
  obtain ⟨c, hcmem, hcid, hcuid⟩ := resolve_chat_owned db data.chatId u.id
  have hmsgs := resolve_messages db data.chatId u.id
  set r := resolveOrCreateChat db data.chatId u.id with hr
  have hadd := addMessage_ok r.db r.chatId u.id (data.content.getD "") Role.user
    ⟨c, hcmem, hcid⟩
  have hbump : ∃ cx ∈ (dbAfterAdd r.db r.chatId u.id (data.content.getD "") Role.user).chats,
      cx.id = r.chatId ∧ cx.userId = u.id := by
    simpa [dbAfterAdd] using
      chats_map_bump_owned (r.db.clock + 1) r.chatId ⟨c, hcmem, hcid, hcuid⟩
  obtain ⟨cc, hcc⟩ := getChatContext_ok hbump
  refine ⟨insertedMessage r.db r.chatId u.id (data.content.getD "") Role.user,
          dbAfterAdd r.db r.chatId u.id (data.content.getD "") Role.user,
          rfl, rfl, rfl, rfl, ?_, ?_, ?_⟩
  · simp [dbAfterAdd, hmsgs]
  · intro emsg hfail
    simp only [handleChatWithLLM, hc, Bool.true_eq_false, if_false, ← hr, hadd, hcc, hfail]
  · intro hfail
    obtain ⟨c2, hc2mem, hc2id, _⟩ := hbump
    have hadd2 := addMessage_ok (dbAfterAdd r.db r.chatId u.id (data.content.getD "") Role.user)
      r.chatId u.id (concatStrings sb.fragments) Role.assistant ⟨c2, hc2mem, hc2id⟩
    refine ⟨insertedMessage (dbAfterAdd r.db r.chatId u.id (data.content.getD "") Role.user)
        r.chatId u.id (concatStrings sb.fragments) Role.assistant,
      dbAfterAdd (dbAfterAdd r.db r.chatId u.id (data.content.getD "") Role.user)
        r.chatId u.id (concatStrings sb.fragments) Role.assistant,
      rfl, rfl, ?_, ?_⟩
    · simp [dbAfterAdd, hmsgs]
    · simp only [handleChatWithLLM, hc, Bool.true_eq_false, if_false, ← hr, hadd, hcc, hfail,
        hadd2]

theorem tsChunkPayloads_append (a b : List Event) :
    tsChunkPayloads (a ++ b) = tsChunkPayloads a ++ tsChunkPayloads b := by
  simp [tsChunkPayloads, List.filterMap_append]

theorem tsChunkPayloads_chunks (l : List String) :
    tsChunkPayloads (l.map Event.chunk) = l := by
  induction l with
  | nil => rfl
  | cons x xs ih => simp [tsChunkPayloads, List.filterMap_cons] at ih ⊢; exact ih

/-- C1: for every fragment sequence — the empty one included, fragments that
are undefined or lack a content field normalized to the zero-length string —
the concatenation of the `llm-response-chunk` payloads emitted by the
chat-with-llm handler equals the concatenation of the normalized fragments
in arrival order, with no reordering, loss or duplication: proved for the
buffered JS relay under every timer interleaving, and for the TS handler's
direct emission loop (whose fragments arrive as plain strings). -/
theorem chunk_concatenation_faithful :
    (∀ steps : List RelayStep,
      concatStrings (jsChunkPayloads (jsSession steps none))
        = concatStrings ((stepFragments steps).map normalizeFragment))
    ∧ (∀ (db : Db) (u : UserRef) (data : ChatMessageData) (frags : List String),
      truthy data.content = true →
      tsChunkPayloads (handleChatWithLLM db (some u) data
          (fun _ => { fragments := frags, failure := none })).events = frags) := by
  constructor
  · intro steps
    have h0 : jsSession steps none
        = ((flushBuffer (runRelay steps)).emitted.map JsEvent.chunk) ++ [JsEvent.respEnd] := rfl
    have h1 : jsChunkPayloads (jsSession steps none)
        = (flushBuffer (runRelay steps)).emitted := by
      rw [h0, jsChunkPayloads_append, jsChunkPayloads_chunks]
      simp [jsChunkPayloads]
    rw [h1, flushBuffer_emitted, relay_invariant]
  · intro db u data frags hc
    obtain ⟨userMsg, db2, -, -, -, -, -, -, hok⟩ :=
      handle_stream_shape db u data { fragments := frags, failure := none } hc
    obtain ⟨aiMsg, db3, -, -, -, hrun⟩ := hok rfl
    rcases resolve_events_shape db data.chatId u.id with he | he <;>
      simp only [hrun, tsChunkPayloads_append, tsChunkPayloads_chunks, he] <;>
      simp [tsChunkPayloads]

theorem chunk_concatenation_faithful_witness :
    truthy sampleData.content = true ∧
    tsChunkPayloads (handleChatWithLLM dbEmpty (some sampleUser) sampleData
        (fun _ => { fragments := ["Hi", " there"], failure := none })).events
      = ["Hi", " there"] :=
  ⟨by decide,
   chunk_concatenation_faithful.2 dbEmpty sampleUser sampleData ["Hi", " there"] (by decide)⟩

/-- C2 counterexample: the fragment "ab" arrives (arming the 100 ms flush
timer), the stream then raises: the handler emits `llm-response-error`
first, and the never-cancelled timer delivers the buffered "ab" as a late
`llm-response-chunk` only afterwards — so no final flush is performed before
the error signal is emitted, contrary to the claim. -/
theorem error_signal_precedes_late_flush :
    jsSession [RelayStep.frag (Fragment.obj (some "ab"))] (some (JsValue.str "boom"))
      = [JsEvent.respError (jsErrorPayload (JsValue.str "boom")), JsEvent.chunk "ab"]
    ∧ concatStrings (chunksBeforeTerminal (jsSession
        [RelayStep.frag (Fragment.obj (some "ab"))] (some (JsValue.str "boom")))) ≠ "ab" := by
  constructor
  · rfl
  · decide

/-- C2 amended: on natural end, one unconditional final flush precedes
`llm-response-end`, so the chunks before the completion signal spell out
every normalized fragment.  On a stream error the `catch` emits
`llm-response-error` without flushing — the chunks before the error signal
are exactly those the timer already flushed — and the still-armed,
never-cancelled timer then emits the remaining accumulator content as one
late chunk after the error signal: buffered content is delivered out of
order rather than lost, the concatenation of all chunks of the session still
equalling the concatenation of the normalized fragments. -/
theorem final_flush_on_natural_end_only :
    (∀ steps : List RelayStep,
      concatStrings (chunksBeforeTerminal (jsSession steps none))
        = concatStrings ((stepFragments steps).map normalizeFragment))
    ∧ (∀ (steps : List RelayStep) (e : JsValue),
      chunksBeforeTerminal (jsSession steps (some e)) = (runRelay steps).emitted
      ∧ concatStrings (jsChunkPayloads (jsSession steps (some e)))
          = concatStrings ((stepFragments steps).map normalizeFragment)
      ∧ jsSession steps (some e)
          = ((runRelay steps).emitted.map JsEvent.chunk)
              ++ [JsEvent.respError (jsErrorPayload e)]
              ++ (if (runRelay steps).timerArmed && !((runRelay steps).buffer == "")
                  then [JsEvent.chunk (runRelay steps).buffer] else [])) := by
  constructor
  · intro steps
    have h0 : jsSession steps none
        = ((flushBuffer (runRelay steps)).emitted.map JsEvent.chunk) ++ [JsEvent.respEnd] := rfl
    rw [h0, chunksBeforeTerminal_chunks_end, flushBuffer_emitted, relay_invariant]
  · intro steps e
    have h0 : jsSession steps (some e)
        = ((runRelay steps).emitted.map JsEvent.chunk
            ++ [JsEvent.respError (jsErrorPayload e)])
          ++ (if (runRelay steps).timerArmed && !((runRelay steps).buffer == "")
              then [JsEvent.chunk (runRelay steps).buffer] else []) := rfl
    refine ⟨?_, ?_, rfl⟩
    · rw [h0, chunksBeforeTerminal_chunks_error]
    · rw [h0, jsChunkPayloads_append, jsChunkPayloads_append, jsChunkPayloads_chunks]
      by_cases hb : (runRelay steps).buffer = ""
      · have hcond : ((runRelay steps).timerArmed && !((runRelay steps).buffer == "")) = false := by
          simp [hb]
        have hinv := relay_invariant steps
        rw [hb, String.append_empty] at hinv
        rw [hcond]
        simpa [jsChunkPayloads] using hinv
      · have hcond : ((runRelay steps).timerArmed && !((runRelay steps).buffer == "")) = true := by
          simp [buffer_nonempty_timer_armed steps hb, hb]
        rw [hcond, ← relay_invariant steps]
        simp [jsChunkPayloads, concatStrings_append, concatStrings_singleton]

/-- C3 counterexample: a chat-with-llm event dispatched while the connection
is mid-stream (`streamingActive = true`) with a valid identity and content is
fully processed — storage is called and a fresh streaming session runs — not
rejected with a busy/ignored outcome as the claim requires. -/
theorem busy_prompt_not_rejected :
    ¬ rejectedOutcome dbEmpty
      (onChatWithLlmEvent { user := some sampleUser, streamingActive := true }
        dbEmpty sampleData sampleStream) :=
  fun h => absurd h.1 (by decide)

/-- C3 amended: the handler tracks no busy state, so dispatch is entirely
independent of whether a previous streaming session is active, and every
authenticated prompt with non-empty content is processed (the storage
service is invoked); only missing authentication and missing content are
turned away. -/
theorem prompt_dispatch_ignores_busy_state :
    ∀ (user : Option UserRef) (b b' : Bool) (db : Db) (data : ChatMessageData)
      (stream : String → StreamBehavior),
      onChatWithLlmEvent { user := user, streamingActive := b } db data stream
        = onChatWithLlmEvent { user := user, streamingActive := b' } db data stream
      ∧ (∀ u, user = some u → truthy data.content = true →
          (onChatWithLlmEvent { user := user, streamingActive := b } db data stream).calls
            ≠ []) := by
  intro user b b' db data stream
  refine ⟨rfl, ?_⟩
  rintro u rfl hc
  have hr := resolve_calls_ne_nil db data.chatId u.id
  simp only [onChatWithLlmEvent, handleChatWithLLM, hc, Bool.true_eq_false, if_false]
  repeat' split
  all_goals simp [hr]

theorem prompt_dispatch_ignores_busy_state_witness :
    (onChatWithLlmEvent { user := some sampleUser, streamingActive := true }
      dbEmpty sampleData sampleStream).calls ≠ [] :=
  (prompt_dispatch_ignores_busy_state (some sampleUser) true false dbEmpty sampleData
    sampleStream).2 sampleUser rfl (by decide)

/-- C4: evaluation at the failing input — chat 1 of user 1 holds twenty-one
messages with `createdAt` 1..21; `getChatContext` returns the messages with
`createdAt` 1..20, i.e. the twenty OLDEST (ascending order, `take 20` from
the front), not the twenty most recent (2..21) the claim — and the code's
own comment — require. -/
theorem getChatContext_returns_oldest_twenty :
    (match getChatContext dbTwentyOne 1 1 with
      | Except.ok cc => cc.messages.map fun m => m.createdAt
      | Except.error _ => []) = (List.range 20).map (fun i => i + 1)
    ∧ (match getChatContext dbTwentyOne 1 1 with
      | Except.ok cc => cc.messages.map fun m => m.createdAt
      | Except.error _ => []) ≠ (List.range 20).map (fun i => i + 2) := by
  constructor <;> decide

/-- C5: evaluation at the failing input — chat 1 is owned by user 1, yet
`addMessage(1, userId := 2, ...)` of the Prisma-backed model succeeds,
persists the message on user 1's chat and bumps that chat's `updatedAt`
(5 → 6); the in-memory implementation of the same operation rejects the
call (`null`) and leaves the store untouched, as the claim requires. -/
theorem addMessage_ignores_ownership :
    (match addMessage dbOneChat 1 2 "hi" Role.user with
      | Except.ok (m, db1) =>
          m.chatId == 1 && db1.messages.length == 1
            && (db1.chats.map fun c => c.updatedAt) == [6]
      | Except.error _ => false) = true
    ∧ memAddMessage
        [{ id := 1, userId := 1, title := "t", messages := [], context := none,
           updatedAt := 0 }] 10 5 1 2 Role.user "hi"
      = (none,
         [{ id := 1, userId := 1, title := "t", messages := [], context := none,
            updatedAt := 0 }]) := by
  constructor <;> decide

/-- C6: resolving an existing chat owned by the requesting user twice yields
the same chat id both times and creates no chat row; a prompt with an absent
chatId, or a chatId unknown or owned by another user, creates a fresh chat
titled "New Chat", persists it, and announces it with a `chat-created`
notification. -/
theorem resolve_idempotent_and_lazy_creation :
    ∀ (db : Db) (uid : Nat),
      (∀ cid, (getChatById db cid uid).isSome →
        (resolveOrCreateChat db (some cid) uid).chatId = cid
        ∧ (resolveOrCreateChat db (some cid) uid).db = db
        ∧ (resolveOrCreateChat (resolveOrCreateChat db (some cid) uid).db
            (some cid) uid).chatId = cid
        ∧ (resolveOrCreateChat (resolveOrCreateChat db (some cid) uid).db
            (some cid) uid).db = db)
      ∧ (∀ cid : Option Nat,
          (cid = none ∨ ∃ k, cid = some k ∧ getChatById db k uid = none) →
          (newChatRow db uid).title = "New Chat"
          ∧ (newChatRow db uid).userId = uid
          ∧ (resolveOrCreateChat db cid uid).chatId = (newChatRow db uid).id
          ∧ (resolveOrCreateChat db cid uid).db.chats = db.chats ++ [newChatRow db uid]
          ∧ (resolveOrCreateChat db cid uid).events
              = [Event.chatCreated (newChatRow db uid).id]) := by
  intro db uid
  constructor
  · intro cid hs
    obtain ⟨chat, hchat⟩ := Option.isSome_iff_exists.mp hs
    have h1 : resolveOrCreateChat db (some cid) uid
        = { chatId := cid, db := db, events := [],
            calls := [StorageCall.getChatByIdCall] } := by
      simp only [resolveOrCreateChat, hchat]
    simp [h1]
  · rintro cid (rfl | ⟨k, rfl, hnone⟩)
    · exact ⟨rfl, rfl, rfl, rfl, rfl⟩
    · have h1 : resolveOrCreateChat db (some k) uid
          = { chatId := db.nextId,
              db := { chats := db.chats ++ [newChatRow db uid], messages := db.messages,
                      nextId := db.nextId + 1, clock := db.clock + 1 },
              events := [Event.chatCreated db.nextId],
              calls := [StorageCall.getChatByIdCall, StorageCall.createChatCall] } := by
        simp only [resolveOrCreateChat, hnone]
        rfl
      simp [h1, newChatRow]

theorem resolve_idempotent_and_lazy_creation_witness :
    (resolveOrCreateChat dbOneChat (some 1) 1).chatId = 1
    ∧ (resolveOrCreateChat dbOneChat (some 1) 1).db = dbOneChat
    ∧ (resolveOrCreateChat dbEmpty none 1).events
        = [Event.chatCreated (newChatRow dbEmpty 1).id] :=
  ⟨((resolve_idempotent_and_lazy_creation dbOneChat 1).1 1 (by decide)).1,
   ((resolve_idempotent_and_lazy_creation dbOneChat 1).1 1 (by decide)).2.1,
   ((resolve_idempotent_and_lazy_creation dbEmpty 1).2 none (Or.inl rfl)).2.2.2.2⟩

/-- C7: when the inference stream raises after emitting any number of
fragments, the handler's final two events are `llm-typing-end` followed by
`llm-response-error`; the user's prompt message is persisted, no assistant
message is persisted (the assistant-role rows are exactly those already
present), and the connection remains open. -/
theorem midstream_error_behaviour (db : Db) (u : UserRef) (data : ChatMessageData)
    (frags : List String) (emsg : String) (hc : truthy data.content = true) :
    (∃ pre : List Event,
      (handleChatWithLLM db (some u) data
          (fun _ => { fragments := frags, failure := some emsg })).events
        = pre ++ [Event.typingEnd,
            Event.respError "Failed to get AI response. Please try again." emsg]
      ∧ Event.typingStart ∈ pre)
    ∧ (∃ m ∈ (handleChatWithLLM db (some u) data
          (fun _ => { fragments := frags, failure := some emsg })).db.messages,
        m.role = Role.user ∧ m.content = data.content.getD "" ∧ m.userId = u.id)
    ∧ (handleChatWithLLM db (some u) data
          (fun _ => { fragments := frags, failure := some emsg })).db.messages.filter
            (fun m => m.role == Role.assistant)
        = db.messages.filter (fun m => m.role == Role.assistant)
    ∧ (handleChatWithLLM db (some u) data
        (fun _ => { fragments := frags, failure := some emsg })).connectionOpen = true := by
  obtain ⟨userMsg, db2, hrole, hcontent, huid, -, hmsgs2, herr, -⟩ :=
    handle_stream_shape db u data { fragments := frags, failure := some emsg } hc
  have hrun := herr emsg rfl
  rw [hrun]
  refine ⟨⟨(resolveOrCreateChat db data.chatId u.id).events
      ++ [Event.typingStart] ++ frags.map Event.chunk, rfl, by simp⟩,
    ⟨userMsg, by simp [hmsgs2], hrole, hcontent, huid⟩, ?_, rfl⟩
  have hu : (userMsg.role == Role.assistant) = false := by
    rw [hrole]
    rfl
  simp [hmsgs2, List.filter_append, hu]

theorem midstream_error_behaviour_witness :
    (handleChatWithLLM dbEmpty (some sampleUser) sampleData
        (fun _ => { fragments := ["a", "b"], failure := some "boom" })).connectionOpen
      = true :=
  (midstream_error_behaviour dbEmpty sampleUser sampleData ["a", "b"] "boom"
    (by decide)).2.2.2

/-- C8: a connection presenting no valid credential receives an `auth_error`
notification and is disconnected at accept time, before any listener is
registered; a chat-with-llm event on that connection therefore triggers no
handler, makes zero storage-service calls, leaves the database untouched and
produces no further events. -/
theorem unauthenticated_prompt_rejected (token : Option String)
    (verify : String → Option UserRef) (db : Db) (data : ChatMessageData)
    (stream : String → StreamBehavior)
    (h : credentialUser token verify = none) :
    (∃ msg, (connectionThenPrompt token verify db data stream).1.events
        = [Event.authError msg])
    ∧ (connectionThenPrompt token verify db data stream).1.disconnected = true
    ∧ (connectionThenPrompt token verify db data stream).2.calls = []
    ∧ (connectionThenPrompt token verify db data stream).2.db = db
    ∧ (connectionThenPrompt token verify db data stream).2.events = [] := by
  unfold credentialUser at h
  cases ht : truthy token with
  | false =>
    refine ⟨⟨"Authentication required", ?_⟩, ?_, ?_, ?_, ?_⟩ <;>
      simp [connectionThenPrompt, handleConnection, ht]
  | true =>
    rw [ht, if_pos rfl] at h
    refine ⟨⟨"Invalid token", ?_⟩, ?_, ?_, ?_, ?_⟩ <;>
      simp [connectionThenPrompt, handleConnection, ht, h]

theorem unauthenticated_prompt_rejected_witness :
    (connectionThenPrompt none (fun _ => none) dbEmpty sampleData sampleStream).2.calls
      = [] :=
  (unauthenticated_prompt_rejected none (fun _ => none) dbEmpty sampleData sampleStream
    rfl).2.2.1

/-- C9 counterexample: the JS relay's `llm-response-error` payload
`{ error: error }` built from a raised `Error` object has no `message` field
at all — so the claim that every such payload carries a string `message` and
a string `error` field fails on it. -/
theorem js_error_payload_malformed :
    ¬ wellTypedErrorPayload (jsErrorPayload (JsValue.errObj "boom" "stack trace")) := by
  rintro ⟨⟨s, hs⟩, -⟩
  simp [lookupField, jsErrorPayload] at hs

/-- C9 amended: the TS handler's `llm-response-error` payload is well-typed —
a fixed human-readable `message` string and the raised error's message string
in `error` (no stack trace, no credentials); the JS relay's payload instead
carries only an `error` field holding the raw error value and has no
`message` field. -/
theorem error_payload_shapes :
    (∀ emsg : String,
      wellTypedErrorPayload (tsErrorPayload emsg)
      ∧ lookupField (tsErrorPayload emsg) "message"
          = some (JsValue.str "Failed to get AI response. Please try again.")
      ∧ lookupField (tsErrorPayload emsg) "error" = some (JsValue.str emsg))
    ∧ (∀ e : JsValue,
      lookupField (jsErrorPayload e) "message" = none
      ∧ lookupField (jsErrorPayload e) "error" = some e) := by
  constructor
  · intro emsg
    refine ⟨⟨⟨"Failed to get AI response. Please try again.", ?_⟩, ⟨emsg, ?_⟩⟩, ?_, ?_⟩ <;>
      simp [lookupField, tsErrorPayload]
  · intro e
    constructor <;> simp [lookupField, jsErrorPayload]

/-- C10: an authenticated chat-with-llm whose content is absent or empty is
answered with the single `error` event "Content is required" and nothing
else: no chat resolution or creation, no persisted message, no storage call,
no typing/chunk/completion event, and (the result being independent of the
`stream` argument) no inference invocation. -/
theorem empty_content_rejected (db : Db) (u : UserRef) (data : ChatMessageData)
    (stream : String → StreamBehavior) (h : truthy data.content = false) :
    handleChatWithLLM db (some u) data stream
      = { events := [Event.errorEv "Content is required"], db := db,
          calls := [], connectionOpen := true } := by
  simp [handleChatWithLLM, h]

theorem empty_content_rejected_witness :
    handleChatWithLLM dbEmpty (some sampleUser)
        { content := some "", chatId := none, userId := none, context := none } sampleStream
      = { events := [Event.errorEv "Content is required"], db := dbEmpty,
          calls := [], connectionOpen := true } :=
  empty_content_rejected dbEmpty sampleUser
    { content := some "", chatId := none, userId := none, context := none }
    sampleStream (by decide)

end LlmChat
